import Mathlib

/-!
Shallow embedding of the client-side health-factor risk engine and
position-aggregation layer of the app.celipto repository, together with
theorems settling the frozen claims about it.

Numbers that the JavaScript source manipulates as IEEE doubles are
modelled as rationals (`ℚ`); the JavaScript value `Infinity`, which the
source produces for a health factor with zero debt, is modelled by a
dedicated constructor of the `HF` type.  Timestamps (`Date.now()`) are
modelled as integers (milliseconds).
-/

namespace Celipto

/-- A health-factor value: either a finite rational or the JavaScript
value `Infinity` (written `HF.inf`), which the source returns when the
debt is zero. -/
inductive HF where
  | fin (q : ℚ)
  | inf
deriving DecidableEq, Repr

/-- The JavaScript `<` comparison on health-factor values: `Infinity` is
strictly greater than every finite number and not less than itself. -/
def HF.lt : HF → HF → Bool
  | .fin x, .fin y => decide (x < y)
  | .fin _, .inf => true
  | .inf, _ => false

/-- Account data returned by `getUserAccountData` in
`src/services/blockchain.js` (fields parsed from the on-chain read). -/
structure AccountData where
  totalCollateralETH : ℚ
  totalDebtETH : ℚ
  availableBorrowsETH : ℚ
  currentLiquidationThreshold : ℚ
  ltv : ℚ
  healthFactor : ℚ
deriving DecidableEq, Repr

/-- The four hypothetical actions accepted by
`calculateHealthFactorAfterAction` in `src/services/blockchain.js`. -/
inductive HFAction where
  | supplyAct
  | withdrawAct
  | borrowAct
  | repayAct
deriving DecidableEq, Repr

/-- Collateral after the hypothetical action, following the `switch` in
`calculateHealthFactorAfterAction`: `supply` adds `amountInUSD`,
`withdraw` subtracts it, `borrow` and `repay` leave it unchanged. -/
def newCollateralAfter (data : AccountData) (amountInUSD : ℚ) : HFAction → ℚ
  | .supplyAct => data.totalCollateralETH + amountInUSD
  | .withdrawAct => data.totalCollateralETH - amountInUSD
  | .borrowAct => data.totalCollateralETH
  | .repayAct => data.totalCollateralETH

/-- Debt after the hypothetical action, following the `switch` in
`calculateHealthFactorAfterAction`: `borrow` adds `amountInUSD`,
`repay` subtracts it, `supply` and `withdraw` leave it unchanged. -/
def newDebtAfter (data : AccountData) (amountInUSD : ℚ) : HFAction → ℚ
  | .supplyAct => data.totalDebtETH
  | .withdrawAct => data.totalDebtETH
  | .borrowAct => data.totalDebtETH + amountInUSD
  | .repayAct => data.totalDebtETH - amountInUSD

/-- `calculateHealthFactorAfterAction` from `src/services/blockchain.js`
(lines 378-417): apply the action delta `amount * assetPrice` to
collateral or debt, return `Infinity` when the new debt is exactly `0`,
and otherwise `(newCollateral * currentLiquidationThreshold) / newDebt`. -/
def calculateHealthFactorAfterAction (data : AccountData)
    (assetPrice amount : ℚ) (action : HFAction) : HF :=
  let amountInUSD := amount * assetPrice
  let newCollateral := newCollateralAfter data amountInUSD action
  let newDebt := newDebtAfter data amountInUSD action
  if newDebt = 0 then .inf
  else .fin (newCollateral * data.currentLiquidationThreshold / newDebt)

/-- The health-factor formula of the specification: `Infinity` when the
debt is `0`, else `(collateral * threshold) / debt`.  Used to compare
the source functions against the stated invariant. -/
def healthFactorFormula (collateral debt threshold : ℚ) : HF :=
  if debt = 0 then .inf else .fin (collateral * threshold / debt)

/-- The value returned by `formatHealthFactor` in the formatters module:
either the string for infinity, or a number displayed with two decimal
places (carried here as the rounded rational). -/
inductive HFDisplay where
  | infinityStr
  | value (q : ℚ)
deriving DecidableEq, Repr

/-- JavaScript `toFixed(2)` on an exact rational: round to the nearest
multiple of 1/100, ties towards the larger value. -/
def toFixed2 (q : ℚ) : ℚ :=
  (⌊q * 100 + 1/2⌋ : ℚ) / 100

/-- `formatHealthFactor` from the formatters module (lines 200-208):
debt `0` displays infinity; otherwise the health factor is
`collateral * liquidationThreshold / debt`, displayed as infinity when
above `100`, and with two decimals otherwise. -/
def formatHealthFactor (collateral debt liquidationThreshold : ℚ) : HFDisplay :=
  if debt = 0 then .infinityStr
  else
    let healthFactor := collateral * liquidationThreshold / debt
    if 100 < healthFactor then .infinityStr
    else .value (toFixed2 healthFactor)

/-- `formatHealthFactor` as invoked without a threshold argument: the
source declares the parameter with the fixed default `0.85`, and its
call site passes no threshold. -/
def formatHealthFactorDefault (collateral debt : ℚ) : HFDisplay :=
  formatHealthFactor collateral debt (85/100)

/-- C1 counterexample: for collateral 1000 and debt 5 — a positive debt
— the formula gives `1000 * 0.85 / 5 = 170`, but `formatHealthFactor`
(with its fixed default threshold `0.85`) reports infinity, not the
formula value: the display clamps every ratio above 100. -/
theorem c1_formatHealthFactor_counterexample :
    (0 : ℚ) < 5
    ∧ (1000 : ℚ) * (85/100) / 5 = 170
    ∧ formatHealthFactorDefault 1000 5 = HFDisplay.infinityStr
    ∧ HFDisplay.infinityStr ≠ HFDisplay.value 170 := by
  refine ⟨by norm_num, by norm_num, ?_, by simp⟩
  norm_num [formatHealthFactorDefault, formatHealthFactor]

/-- C1 amended: the after-action computation satisfies the invariant —
`Infinity` when the post-action debt is `0`, and exactly
`(collateral * weightedLiquidationThreshold) / debt` when the debt is
positive.  The display function `formatHealthFactor`, however, reports
infinity not only at debt `0` but for every computed ratio above `100`
with nonzero debt, shows the two-decimal rounding of the formula below
that cutoff, and its default invocation uses the fixed `0.85` threshold
rather than the account's weighted one. -/
theorem c1_healthFactor_amended :
    (∀ (data : AccountData) (assetPrice amount : ℚ) (action : HFAction),
      (newDebtAfter data (amount * assetPrice) action = 0 →
        calculateHealthFactorAfterAction data assetPrice amount action = .inf)
      ∧ (0 < newDebtAfter data (amount * assetPrice) action →
        calculateHealthFactorAfterAction data assetPrice amount action =
          .fin (newCollateralAfter data (amount * assetPrice) action *
            data.currentLiquidationThreshold /
            newDebtAfter data (amount * assetPrice) action)))
    ∧ (∀ collateral debt threshold : ℚ,
      (debt = 0 → formatHealthFactor collateral debt threshold = .infinityStr)
      ∧ (debt ≠ 0 → 100 < collateral * threshold / debt →
        formatHealthFactor collateral debt threshold = .infinityStr)
      ∧ (debt ≠ 0 → ¬ 100 < collateral * threshold / debt →
        formatHealthFactor collateral debt threshold =
          .value (toFixed2 (collateral * threshold / debt))))
    ∧ (∀ collateral debt : ℚ,
      formatHealthFactorDefault collateral debt =
        formatHealthFactor collateral debt (85/100)) := by
  refine ⟨?_, ?_, fun collateral debt => rfl⟩
  · intro data assetPrice amount action
    unfold calculateHealthFactorAfterAction
    constructor
    · intro h
      simp [h]
    · intro h
      have hne : newDebtAfter data (amount * assetPrice) action ≠ 0 := ne_of_gt h
      simp [hne]
  · intro collateral debt threshold
    refine ⟨fun h0 => by simp [formatHealthFactor, h0], ?_, ?_⟩
    · intro hd hbig
      simp [formatHealthFactor, hd, hbig]
    · intro hd hsmall
      simp [formatHealthFactor, hd, hsmall]

/-- C1 amended witness: repaying the whole debt of an account with
collateral 100 and debt 50 yields `Infinity`, and borrowing 10 more
yields `(100 * 0.85) / 60`; the display reports infinity at debt 0 and
at ratio 170, shows `1.70` for collateral 100 / debt 50 at threshold
`0.85`, and the default invocation matches the explicit `0.85` one. -/
theorem c1_healthFactor_amended_witness :
    (newDebtAfter ⟨100, 50, 0, 85/100, 0, 0⟩ (50 * 1) .repayAct = 0 ∧
      calculateHealthFactorAfterAction ⟨100, 50, 0, 85/100, 0, 0⟩ 1 50 .repayAct = .inf)
    ∧ (0 < newDebtAfter ⟨100, 50, 0, 85/100, 0, 0⟩ (10 * 1) .borrowAct ∧
      calculateHealthFactorAfterAction ⟨100, 50, 0, 85/100, 0, 0⟩ 1 10 .borrowAct =
        .fin (newCollateralAfter ⟨100, 50, 0, 85/100, 0, 0⟩ (10 * 1) .borrowAct *
          (85/100) / newDebtAfter ⟨100, 50, 0, 85/100, 0, 0⟩ (10 * 1) .borrowAct))
    ∧ formatHealthFactor 7 0 (85/100) = HFDisplay.infinityStr
    ∧ ((5 : ℚ) ≠ 0 ∧ 100 < (1000 : ℚ) * (85/100) / 5 ∧
      formatHealthFactor 1000 5 (85/100) = HFDisplay.infinityStr)
    ∧ ((50 : ℚ) ≠ 0 ∧ ¬ 100 < (100 : ℚ) * (85/100) / 50 ∧
      formatHealthFactor 100 50 (85/100) =
        HFDisplay.value (toFixed2 (100 * (85/100) / 50)))
    ∧ formatHealthFactorDefault 100 50 = formatHealthFactor 100 50 (85/100) :=
  ⟨⟨by norm_num [newDebtAfter],
    (c1_healthFactor_amended.1 ⟨100, 50, 0, 85/100, 0, 0⟩ 1 50 .repayAct).1
      (by norm_num [newDebtAfter])⟩,
   ⟨by norm_num [newDebtAfter],
    (c1_healthFactor_amended.1 ⟨100, 50, 0, 85/100, 0, 0⟩ 1 10 .borrowAct).2
      (by norm_num [newDebtAfter])⟩,
   (c1_healthFactor_amended.2.1 7 0 (85/100)).1 rfl,
   ⟨by norm_num, by norm_num,
    (c1_healthFactor_amended.2.1 1000 5 (85/100)).2.1 (by norm_num) (by norm_num)⟩,
   ⟨by norm_num, by norm_num,
    (c1_healthFactor_amended.2.1 100 50 (85/100)).2.2 (by norm_num) (by norm_num)⟩,
   c1_healthFactor_amended.2.2 100 50⟩

/-- C2 counterexample: repaying 60 at price 1 against a debt of 50 fully
clears the debt (60 ≥ 50), yet the code returns the finite negative
health factor `(100 * 0.85) / (50 - 60) = -8.5`, not `Infinity`:
the clamp fires only when the resulting debt is exactly `0`. -/
theorem c2_overRepay_counterexample :
    0 < (50 : ℚ) ∧ (50 : ℚ) ≤ 60 * 1 ∧
    calculateHealthFactorAfterAction ⟨100, 50, 0, 85/100, 0, 0⟩ 1 60 .repayAct =
      .fin (-17/2) ∧
    HF.fin (-17/2) ≠ HF.inf := by
  refine ⟨by norm_num, by norm_num, ?_, by simp⟩
  unfold calculateHealthFactorAfterAction newDebtAfter newCollateralAfter
  norm_num

/-- C2 amended: the predicted health factor after a repay is `Infinity`
exactly when `q * price` equals the debt; when `q * price` differs from
the debt the code returns the finite value
`(collateral * threshold) / (debt - q * price)` — negative on over-repay. -/
theorem c2_repay_clamp_amended (data : AccountData) (price q : ℚ) :
    (data.totalDebtETH = q * price →
      calculateHealthFactorAfterAction data price q .repayAct = .inf)
    ∧ (data.totalDebtETH ≠ q * price →
      calculateHealthFactorAfterAction data price q .repayAct =
        .fin (data.totalCollateralETH * data.currentLiquidationThreshold /
          (data.totalDebtETH - q * price))) := by
  unfold calculateHealthFactorAfterAction newDebtAfter newCollateralAfter
  constructor
  · intro h
    simp [h]
  · intro h
    have : data.totalDebtETH - q * price ≠ 0 := sub_ne_zero.mpr h
    simp [this]

/-- C2 amended witness: repaying exactly the debt yields `Infinity`;
over-repaying yields the finite value computed from the negative debt. -/
theorem c2_repay_clamp_amended_witness :
    ((50 : ℚ) = 50 * 1 ∧
      calculateHealthFactorAfterAction ⟨100, 50, 0, 85/100, 0, 0⟩ 1 50 .repayAct = .inf)
    ∧ ((50 : ℚ) ≠ 60 * 1 ∧
      calculateHealthFactorAfterAction ⟨100, 50, 0, 85/100, 0, 0⟩ 1 60 .repayAct =
        .fin (100 * (85/100) / (50 - 60 * 1))) :=
  ⟨⟨by norm_num,
    (c2_repay_clamp_amended ⟨100, 50, 0, 85/100, 0, 0⟩ 1 50).1 (by norm_num)⟩,
   ⟨by norm_num,
    (c2_repay_clamp_amended ⟨100, 50, 0, 85/100, 0, 0⟩ 1 60).2 (by norm_num)⟩⟩

/-- A token as the hooks see it: the fields used by the risk logic are
the symbol and the USD price. -/
structure Token where
  symbol : String
  price : ℚ
deriving DecidableEq, Repr

namespace HEALTH_FACTOR

/-- `HEALTH_FACTOR.CRITICAL` from the constants module. -/
def CRITICAL : ℚ := 1

/-- `HEALTH_FACTOR.WARNING` from the constants module. -/
def WARNING : ℚ := 6/5

/-- `HEALTH_FACTOR.SAFE` from the constants module. -/
def SAFE : ℚ := 3/2

/-- `HEALTH_FACTOR.HEALTHY` from the constants module. -/
def HEALTHY : ℚ := 2

end HEALTH_FACTOR

/-- `calculateNewHealthFactor` from `src/hooks/useYield.js` (lines
394-405): a zero (or missing) borrow amount returns the current health
factor; otherwise the new debt is `totalBorrowed + amount * price`,
`Infinity` when that is `0`, else `(totalSupplied * 0.85) / newDebt`
with the hard-coded `0.85` threshold constant. -/
def calculateNewHealthFactor (healthFactor : HF) (totalBorrowed totalSupplied : ℚ)
    (borrowAmount : ℚ) (token : Token) : HF :=
  if borrowAmount = 0 then healthFactor
  else
    let borrowValue := borrowAmount * token.price
    let newTotalBorrowed := totalBorrowed + borrowValue
    if newTotalBorrowed = 0 then .inf
    else .fin (totalSupplied * (85/100) / newTotalBorrowed)

/-- `getMaxBorrowable` from `src/hooks/useYield.js`:
`availableToBorrow / token.price * 0.99`. -/
def getMaxBorrowable (availableToBorrow : ℚ) (token : Token) : ℚ :=
  availableToBorrow / token.price * (99/100)

/-- `validateBorrowAmount` from `src/hooks/useYield.js` (lines 424-453):
rejects non-positive amounts, amounts above `getMaxBorrowable`, and
amounts whose predicted health factor is below `HEALTH_FACTOR.SAFE`;
accepts otherwise. -/
def validateBorrowAmount (healthFactor : HF) (totalBorrowed totalSupplied availableToBorrow : ℚ)
    (amount : ℚ) (token : Token) : Bool :=
  if amount ≤ 0 then false
  else if getMaxBorrowable availableToBorrow token < amount then false
  else if HF.lt (calculateNewHealthFactor healthFactor totalBorrowed totalSupplied amount token)
      (.fin HEALTH_FACTOR.SAFE) then false
  else true

/-- C3 counterexample: for an account whose live weighted liquidation
threshold is `0.9` (collateral 100, debt 0, current health factor 2),
predicting a borrow of 10 at price 1 with `calculateNewHealthFactor`
yields `(100 * 0.85) / 10 = 8.5`, while recomputing with the snapshot's
own threshold yields `(100 * 0.9) / 10 = 9`: the predictor uses the
fixed `0.85` constant, not the live threshold. -/
theorem c3_threshold_counterexample :
    calculateNewHealthFactor (HF.fin 2) 0 100 10 ⟨"DAI", 1⟩ = HF.fin (17/2)
    ∧ healthFactorFormula 100 (0 + 10 * 1) (9/10) = HF.fin 9
    ∧ calculateNewHealthFactor (HF.fin 2) 0 100 10 ⟨"DAI", 1⟩ ≠
        healthFactorFormula 100 (0 + 10 * 1) (9/10) := by
  refine ⟨?_, ?_, ?_⟩ <;>
    norm_num [calculateNewHealthFactor, healthFactorFormula]

/-- C3 amended: `calculateHealthFactorAfterAction` does recompute with
the snapshot's live `currentLiquidationThreshold` for every action kind,
asset price and quantity; but the borrow predictor
`calculateNewHealthFactor` in `useYield` instead always divides
`totalSupplied * 0.85` by the new debt, ignoring the live threshold. -/
theorem c3_threshold_amended :
    (∀ (data : AccountData) (price q : ℚ) (action : HFAction),
      calculateHealthFactorAfterAction data price q action =
        healthFactorFormula (newCollateralAfter data (q * price) action)
          (newDebtAfter data (q * price) action) data.currentLiquidationThreshold)
    ∧ (∀ (hf : HF) (tb ts q : ℚ) (tok : Token), q ≠ 0 →
      calculateNewHealthFactor hf tb ts q tok =
        (if tb + q * tok.price = 0 then HF.inf
         else HF.fin (ts * (85/100) / (tb + q * tok.price)))) := by
  constructor
  · intro data price q action
    rfl
  · intro hf tb ts q tok hq
    simp [calculateNewHealthFactor, hq]

/-- C3 amended witness: the borrow case of the after-action predictor at
a concrete account, and the `useYield` predictor at a concrete nonzero
quantity. -/
theorem c3_threshold_amended_witness :
    (calculateHealthFactorAfterAction ⟨100, 0, 0, 9/10, 0, 2⟩ 1 10 .borrowAct =
      healthFactorFormula (newCollateralAfter ⟨100, 0, 0, 9/10, 0, 2⟩ (10 * 1) .borrowAct)
        (newDebtAfter ⟨100, 0, 0, 9/10, 0, 2⟩ (10 * 1) .borrowAct) (9/10))
    ∧ ((10 : ℚ) ≠ 0 ∧
      calculateNewHealthFactor (HF.fin 2) 0 100 10 ⟨"DAI", 1⟩ =
        (if (0 : ℚ) + 10 * (1 : ℚ) = 0 then HF.inf
         else HF.fin (100 * (85/100) / (0 + 10 * 1)))) :=
  ⟨c3_threshold_amended.1 ⟨100, 0, 0, 9/10, 0, 2⟩ 1 10 .borrowAct,
   by norm_num,
   c3_threshold_amended.2 (HF.fin 2) 0 100 10 ⟨"DAI", 1⟩ (by norm_num)⟩

/-- C10: whenever `validateBorrowAmount` accepts a positive borrow
amount, the predicted post-borrow health factor of
`calculateNewHealthFactor` is not below `HEALTH_FACTOR.SAFE = 1.5`; a
borrow predicted to land below 1.5 is rejected before any transaction. -/
theorem c10_validateBorrow_safe (hf : HF) (tb ts atb q : ℚ) (tok : Token)
    (_hq : 0 < q)
    (hv : validateBorrowAmount hf tb ts atb q tok = true) :
    HF.lt (calculateNewHealthFactor hf tb ts q tok) (.fin HEALTH_FACTOR.SAFE) = false := by
  unfold validateBorrowAmount at hv
  split_ifs at hv with h1 h2 h3
  simpa using h3

/-- C10 witness: with collateral value 100, no current debt and 100
available to borrow, borrowing 1 unit at price 1 is accepted and the
predicted health factor `(100 * 0.85) / 1 = 85` is not below 1.5. -/
theorem c10_validateBorrow_safe_witness :
    (0 : ℚ) < 1 ∧
    validateBorrowAmount (HF.fin 2) 0 100 100 1 ⟨"ETH", 1⟩ = true ∧
    HF.lt (calculateNewHealthFactor (HF.fin 2) 0 100 1 ⟨"ETH", 1⟩)
      (.fin HEALTH_FACTOR.SAFE) = false := by
  have hv : validateBorrowAmount (HF.fin 2) 0 100 100 1 ⟨"ETH", 1⟩ = true := by
    norm_num [validateBorrowAmount, getMaxBorrowable, calculateNewHealthFactor,
      HF.lt, HEALTH_FACTOR.SAFE]
  exact ⟨by norm_num, hv,
    c10_validateBorrow_safe (HF.fin 2) 0 100 100 1 ⟨"ETH", 1⟩ (by norm_num) hv⟩

/-- The six risk classes produced by `getHealthFactorStatus` in the
formatters module (identified by their `text` field in the source). -/
inductive RiskStatus where
  | Liquidatable
  | Critical
  | Warning
  | Moderate
  | Safe
  | Healthy
deriving DecidableEq, Repr

/-- `getHealthFactorStatus` from the formatters module (lines 215-237):
a cascade of comparisons — `Infinity` or `> 10` is Healthy, `≥ 2` Safe,
`≥ 1.5` Moderate, `≥ 1.2` Warning, `≥ 1.0` Critical, else Liquidatable. -/
def getHealthFactorStatus : HF → RiskStatus
  | .inf => .Healthy
  | .fin h =>
    if 10 < h then .Healthy
    else if 2 ≤ h then .Safe
    else if 3/2 ≤ h then .Moderate
    else if 6/5 ≤ h then .Warning
    else if 1 ≤ h then .Critical
    else .Liquidatable

/-- The band classification exactly as the specification words it:
`< 1.0` Liquidatable, `[1.0, 1.2)` Critical, `[1.2, 1.5)` Warning,
`[1.5, 2.0)` Moderate, `[2.0, 10.0]` Safe, `> 10.0` Healthy. -/
def specRiskClass (q : ℚ) : RiskStatus :=
  if q < 1 then .Liquidatable
  else if q < 6/5 then .Critical
  else if q < 3/2 then .Warning
  else if q < 2 then .Moderate
  else if q ≤ 10 then .Safe
  else .Healthy

/-- Safety rank of a risk class: higher means safer.  Used to state
monotonicity of the classification. -/
def RiskStatus.rank : RiskStatus → ℕ
  | .Liquidatable => 0
  | .Critical => 1
  | .Warning => 2
  | .Moderate => 3
  | .Safe => 4
  | .Healthy => 5

/-- C4: the risk classification is total with exactly the band
boundaries of the specification (on non-negative finite values and on
`Infinity`), and monotonic — a strictly smaller health factor is never
classified safer. -/
theorem c4_risk_classification :
    (∀ q : ℚ, 0 ≤ q → getHealthFactorStatus (HF.fin q) = specRiskClass q)
    ∧ getHealthFactorStatus HF.inf = RiskStatus.Healthy
    ∧ (∀ a b : HF, HF.lt a b = true →
        (getHealthFactorStatus a).rank ≤ (getHealthFactorStatus b).rank) := by
  refine ⟨?_, rfl, ?_⟩
  · intro q _
    simp only [getHealthFactorStatus, specRiskClass]
    split_ifs <;> first | rfl | (exfalso; linarith)
  · intro a b hab
    cases a with
    | inf => simp [HF.lt] at hab
    | fin x =>
      cases b with
      | inf =>
        show (getHealthFactorStatus (HF.fin x)).rank ≤ 5
        simp only [getHealthFactorStatus]
        split_ifs <;> norm_num [RiskStatus.rank]
      | fin y =>
        have hxy : x < y := by simpa [HF.lt] using hab
        simp only [getHealthFactorStatus]
        split_ifs <;> first | (exfalso; linarith) | norm_num [RiskStatus.rank]

/-- C4 witness: a concrete non-negative value classified by the bands
(1.7 is Moderate) and a concrete strict comparison (1 vs 3) whose
classes respect the safety order. -/
theorem c4_risk_classification_witness :
    ((0 : ℚ) ≤ 17/10 ∧
      getHealthFactorStatus (HF.fin (17/10)) = specRiskClass (17/10))
    ∧ (HF.lt (HF.fin 1) (HF.fin 3) = true ∧
      (getHealthFactorStatus (HF.fin 1)).rank ≤ (getHealthFactorStatus (HF.fin 3)).rank) :=
  ⟨⟨by norm_num, c4_risk_classification.1 (17/10) (by norm_num)⟩,
   ⟨by norm_num [HF.lt],
    c4_risk_classification.2.2 (HF.fin 1) (HF.fin 3) (by norm_num [HF.lt])⟩⟩

/-- The price record built and cached by `getTokenPrice` in the price
service: symbol, USD price, 24h change, market cap and fetch time. -/
structure PriceData where
  symbol : String
  price : ℚ
  change24h : ℚ
  marketCap : ℚ
  timestamp : ℤ
deriving DecidableEq, Repr

/-- One entry of the module-level price cache: the stored record and the
time it was written. -/
structure CacheEntry where
  data : PriceData
  timestamp : ℤ
deriving DecidableEq, Repr

/-- `CACHE_DURATION` from the price service: one minute, in
milliseconds. -/
def CACHE_DURATION : ℤ := 60000

/-- The module-level `priceCache` map, modelled as an association list
from cache keys to entries. -/
def PriceCache : Type := List (String × CacheEntry)

/-- `priceCache.get(key)`. -/
def cacheGet (c : PriceCache) (key : String) : Option CacheEntry :=
  (List.find? (fun p => p.1 = key) c).map Prod.snd

/-- `setCachedPrice` from the price service: `priceCache.set(key, {data,
timestamp})`, modelled as prepending after removing the old binding. -/
def cacheSet (c : PriceCache) (key : String) (e : CacheEntry) : PriceCache :=
  (key, e) :: List.filter (fun p => ¬ p.1 = key) c

/-- `getCachedPrice` from the price service (lines 440-458): return the
cached record only when its age is strictly below `CACHE_DURATION`. -/
def getCachedPrice (c : PriceCache) (now : ℤ) (key : String) : Option PriceData :=
  match cacheGet c key with
  | some cached => if now - cached.timestamp < CACHE_DURATION then some cached.data else none
  | none => none

/-- The fields of the external price-feed response for one token id;
each field may be absent (the source reads them with `?.` and `|| 0`). -/
structure FetchedPrice where
  usd : Option ℚ
  usd24hChange : Option ℚ
  usdMarketCap : Option ℚ
deriving DecidableEq, Repr

/-- `getTokenPrice` from the price service (lines 465-502).  The network
call is modelled by its outcome `fetchResult`: `.error ()` when the
request throws, `.ok res` when it returns (with `res = none` when the
response lacks the token id).  Fresh cache hit: return it.  Otherwise
build the record from the response (absent fields default to 0), cache
and return it; on a thrown error return the cached record even if
expired, else a zero-price record. -/
def getTokenPrice (c : PriceCache) (now : ℤ) (symbol : String)
    (fetchResult : Except Unit (Option FetchedPrice)) : PriceData × PriceCache :=
  let cacheKey := "price_" ++ symbol
  match getCachedPrice c now cacheKey with
  | some cached => (cached, c)
  | none =>
    match fetchResult with
    | .ok res =>
      let priceData : PriceData :=
        { symbol := symbol
          price := (res.bind FetchedPrice.usd).getD 0
          change24h := (res.bind FetchedPrice.usd24hChange).getD 0
          marketCap := (res.bind FetchedPrice.usdMarketCap).getD 0
          timestamp := now }
      (priceData, cacheSet c cacheKey ⟨priceData, now⟩)
    | .error _ =>
      match cacheGet c cacheKey with
      | some cached => (cached.data, c)
      | none => ({ symbol := symbol, price := 0, change24h := 0, marketCap := 0,
                   timestamp := now }, c)

/-- A fresh cache entry is returned as-is by `getCachedPrice`. -/
theorem getCachedPrice_of_fresh (c : PriceCache) (now : ℤ) (key : String)
    (e : CacheEntry) (hc : cacheGet c key = some e)
    (hfresh : now - e.timestamp < CACHE_DURATION) :
    getCachedPrice c now key = some e.data := by
  unfold getCachedPrice
  rw [hc]
  simp [hfresh]

/-- A stale cache entry is hidden by `getCachedPrice`. -/
theorem getCachedPrice_of_stale (c : PriceCache) (now : ℤ) (key : String)
    (e : CacheEntry) (hc : cacheGet c key = some e)
    (hstale : ¬ now - e.timestamp < CACHE_DURATION) :
    getCachedPrice c now key = none := by
  unfold getCachedPrice
  rw [hc]
  simp [hstale]

/-- An absent key yields nothing from `getCachedPrice`. -/
theorem getCachedPrice_of_absent (c : PriceCache) (now : ℤ) (key : String)
    (hc : cacheGet c key = none) :
    getCachedPrice c now key = none := by
  unfold getCachedPrice
  rw [hc]

/-- C7: a fresh entry is returned unchanged for every fetch outcome (so
no fetch is consulted); a stale entry is still returned when the refresh
throws; an absent entry with a thrown refresh yields the zero-price
record; and a successful refresh on a missed cache stores and returns
the fetched record.  A cached price is never silently dropped. -/
theorem c7_price_cache_policy :
    (∀ (c : PriceCache) (now : ℤ) (sym : String) (e : CacheEntry)
        (fetch : Except Unit (Option FetchedPrice)),
      cacheGet c ("price_" ++ sym) = some e →
      now - e.timestamp < CACHE_DURATION →
      getTokenPrice c now sym fetch = (e.data, c))
    ∧ (∀ (c : PriceCache) (now : ℤ) (sym : String) (e : CacheEntry),
      cacheGet c ("price_" ++ sym) = some e →
      ¬ now - e.timestamp < CACHE_DURATION →
      getTokenPrice c now sym (.error ()) = (e.data, c))
    ∧ (∀ (c : PriceCache) (now : ℤ) (sym : String),
      cacheGet c ("price_" ++ sym) = none →
      getTokenPrice c now sym (.error ()) =
        ({ symbol := sym, price := 0, change24h := 0, marketCap := 0, timestamp := now }, c))
    ∧ (∀ (c : PriceCache) (now : ℤ) (sym : String) (res : Option FetchedPrice),
      getCachedPrice c now ("price_" ++ sym) = none →
      getTokenPrice c now sym (.ok res) =
        (⟨sym, (res.bind FetchedPrice.usd).getD 0, (res.bind FetchedPrice.usd24hChange).getD 0,
           (res.bind FetchedPrice.usdMarketCap).getD 0, now⟩,
         cacheSet c ("price_" ++ sym)
           ⟨⟨sym, (res.bind FetchedPrice.usd).getD 0, (res.bind FetchedPrice.usd24hChange).getD 0,
              (res.bind FetchedPrice.usdMarketCap).getD 0, now⟩, now⟩)) := by
  refine ⟨?_, ?_, ?_, ?_⟩
  · intro c now sym e fetch hc hfresh
    simp only [getTokenPrice, getCachedPrice_of_fresh c now _ e hc hfresh]
  · intro c now sym e hc hstale
    simp only [getTokenPrice, getCachedPrice_of_stale c now _ e hc hstale, hc]
  · intro c now sym hc
    simp only [getTokenPrice, getCachedPrice_of_absent c now _ hc, hc]
  · intro c now sym res hmiss
    simp only [getTokenPrice, hmiss]

/-- C7 witness: a concrete one-entry cache exercising all four branches:
a fresh hit at age 0, the same entry stale at age 60000 with a thrown
refresh, a miss with a thrown refresh, and a miss with a successful
refresh. -/
theorem c7_price_cache_policy_witness :
    (cacheGet [("price_ETH", ⟨⟨"ETH", 3, 1, 5, 0⟩, 0⟩)] "price_ETH" =
        some ⟨⟨"ETH", 3, 1, 5, 0⟩, 0⟩ ∧
      (0 : ℤ) - 0 < CACHE_DURATION ∧
      getTokenPrice [("price_ETH", ⟨⟨"ETH", 3, 1, 5, 0⟩, 0⟩)] 0 "ETH" (.error ()) =
        (⟨"ETH", 3, 1, 5, 0⟩, [("price_ETH", ⟨⟨"ETH", 3, 1, 5, 0⟩, 0⟩)]))
    ∧ (¬ (60000 : ℤ) - 0 < CACHE_DURATION ∧
      getTokenPrice [("price_ETH", ⟨⟨"ETH", 3, 1, 5, 0⟩, 0⟩)] 60000 "ETH" (.error ()) =
        (⟨"ETH", 3, 1, 5, 0⟩, [("price_ETH", ⟨⟨"ETH", 3, 1, 5, 0⟩, 0⟩)]))
    ∧ (cacheGet ([] : PriceCache) "price_DAI" = none ∧
      getTokenPrice ([] : PriceCache) 7 "DAI" (.error ()) =
        ({ symbol := "DAI", price := 0, change24h := 0, marketCap := 0, timestamp := 7 }, []))
    ∧ (getCachedPrice ([] : PriceCache) 7 "price_DAI" = none ∧
      getTokenPrice ([] : PriceCache) 7 "DAI" (.ok (some ⟨some 2, none, none⟩)) =
        (⟨"DAI", 2, 0, 0, 7⟩, [("price_DAI", ⟨⟨"DAI", 2, 0, 0, 7⟩, 7⟩)])) := by
  have hc : cacheGet [("price_ETH", ⟨⟨"ETH", 3, 1, 5, 0⟩, 0⟩)] "price_ETH" =
      some ⟨⟨"ETH", 3, 1, 5, 0⟩, 0⟩ := by
    simp [cacheGet]
  have hmiss : cacheGet ([] : PriceCache) "price_DAI" = none := by
    simp [cacheGet, List.find?]
  refine ⟨⟨hc, by norm_num [CACHE_DURATION], ?_⟩, ⟨by norm_num [CACHE_DURATION], ?_⟩,
    ⟨hmiss, ?_⟩, ⟨getCachedPrice_of_absent ([] : PriceCache) 7 "price_DAI" hmiss, ?_⟩⟩
  · exact c7_price_cache_policy.1 _ 0 "ETH" ⟨⟨"ETH", 3, 1, 5, 0⟩, 0⟩ (.error ()) hc
      (by norm_num [CACHE_DURATION])
  · exact c7_price_cache_policy.2.1 _ 60000 "ETH" ⟨⟨"ETH", 3, 1, 5, 0⟩, 0⟩ hc
      (by norm_num [CACHE_DURATION])
  · exact c7_price_cache_policy.2.2.1 _ 7 "DAI" hmiss
  · exact c7_price_cache_policy.2.2.2 _ 7 "DAI" (some ⟨some 2, none, none⟩)
      (getCachedPrice_of_absent ([] : PriceCache) 7 "price_DAI" hmiss)

/-- C5 counterexample: with an empty cache and a thrown fetch, the price
lookup for "XYZ" yields `price = 0` (as claimed); but feeding that zero
price into the borrow predictor (account: supplied 100, borrowed 10,
quantity 5) yields the ordinary numeric health factor
`(100 * 0.85) / 10 = 8.5` — no `PriceUnavailable`/unknown outcome is
reported; the asset is silently treated as worthless. -/
theorem c5_priceUnavailable_counterexample :
    (getTokenPrice ([] : PriceCache) 0 "XYZ" (.error ())).1.price = 0
    ∧ calculateNewHealthFactor (HF.fin 2) 10 100 5
        ⟨"XYZ", (getTokenPrice ([] : PriceCache) 0 "XYZ" (.error ())).1.price⟩ =
      HF.fin (17/2) := by
  have hp : (getTokenPrice ([] : PriceCache) 0 "XYZ" (.error ())).1.price = 0 := by
    simp [getTokenPrice, getCachedPrice, cacheGet]
  refine ⟨hp, ?_⟩
  rw [hp]
  norm_num [calculateNewHealthFactor]

/-- C5 amended: the zero-price half of the claim holds — a thrown fetch
with no cache entry returns `price = 0` for every symbol and time — but
the prediction half does not: the predictor has no unavailable outcome,
and on a zero-priced token with nonzero existing debt it returns the
numeric value `(totalSupplied * 0.85) / totalBorrowed`, treating the
asset as worthless. -/
theorem c5_priceUnavailable_amended :
    (∀ (now : ℤ) (sym : String),
      (getTokenPrice ([] : PriceCache) now sym (.error ())).1.price = 0)
    ∧ (∀ (hf : HF) (tb ts q : ℚ) (sym : String), q ≠ 0 → tb ≠ 0 →
      calculateNewHealthFactor hf tb ts q ⟨sym, 0⟩ = HF.fin (ts * (85/100) / tb)) := by
  constructor
  · intro now sym
    simp [getTokenPrice, getCachedPrice, cacheGet]
  · intro hf tb ts q sym hq htb
    simp [calculateNewHealthFactor, hq, htb]

/-- C5 amended witness: the empty-cache failure path at time 0 for
"XYZ", and the predictor on a zero-priced token with debt 10. -/
theorem c5_priceUnavailable_amended_witness :
    (getTokenPrice ([] : PriceCache) 0 "XYZ" (.error ())).1.price = 0
    ∧ ((5 : ℚ) ≠ 0 ∧ (10 : ℚ) ≠ 0 ∧
      calculateNewHealthFactor (HF.fin 2) 10 100 5 ⟨"XYZ", 0⟩ =
        HF.fin (100 * (85/100) / 10)) :=
  ⟨c5_priceUnavailable_amended.1 0 "XYZ",
   by norm_num, by norm_num,
   c5_priceUnavailable_amended.2 (HF.fin 2) 10 100 5 "XYZ" (by norm_num) (by norm_num)⟩

/-- The error kinds the specification's position aggregator names; used
to state what the source's withdraw/repay handlers would need to return
on a precondition failure. -/
inductive ErrorKind where
  | InvalidAmount
  | NotFound
deriving DecidableEq, Repr

/-- A supply position as stored in the `supplies` state of the contract
hook: its id, quantity, and the owning token's price (the only token
field the update logic reads). -/
structure SupplyPosition where
  id : ℕ
  amount : ℚ
  price : ℚ
deriving DecidableEq, Repr

/-- The supply-side session state: the position list and the running
`totalSupplied` USD value. -/
structure SupplyState where
  supplies : List SupplyPosition
  totalSupplied : ℚ
deriving DecidableEq, Repr

/-- A borrow position as stored in the `borrows` state of the contract
hook. -/
structure BorrowPosition where
  id : ℕ
  amount : ℚ
  price : ℚ
deriving DecidableEq, Repr

/-- The borrow-side session state: the position list and the running
`totalBorrowed` USD value. -/
structure BorrowState where
  borrows : List BorrowPosition
  totalBorrowed : ℚ
deriving DecidableEq, Repr

/-- The position-set update performed by `withdraw` in the contract hook
(lines 962-1028) once the transaction confirms.  `amount = none` (or a
falsy `0`) or `amount ≥ supply.amount` is treated as a full withdrawal:
the position is removed and the total reduced by the whole position
value; only `0 ≠ amount < supply.amount` is a partial withdrawal.  The
only failure is an unknown id. -/
def withdrawUpdate (st : SupplyState) (supplyId : ℕ) (amount : Option ℚ) :
    Except ErrorKind SupplyState :=
  match List.find? (fun s => s.id = supplyId) st.supplies with
  | none => .error .NotFound
  | some supply =>
    match amount with
    | some a =>
      if a ≠ 0 ∧ a < supply.amount then
        .ok ⟨List.map (fun s => if s.id = supplyId then { s with amount := s.amount - a } else s)
               st.supplies,
             st.totalSupplied - a * supply.price⟩
      else
        .ok ⟨List.filter (fun s => ¬ s.id = supplyId) st.supplies,
             st.totalSupplied - supply.amount * supply.price⟩
    | none =>
      .ok ⟨List.filter (fun s => ¬ s.id = supplyId) st.supplies,
           st.totalSupplied - supply.amount * supply.price⟩

/-- The position-set update performed by `repay` in the contract hook
(lines 1098-1168) once the transaction confirms; structurally identical
to the withdraw update, on the borrow side. -/
def repayUpdate (st : BorrowState) (borrowId : ℕ) (amount : Option ℚ) :
    Except ErrorKind BorrowState :=
  match List.find? (fun b => b.id = borrowId) st.borrows with
  | none => .error .NotFound
  | some borrowData =>
    match amount with
    | some a =>
      if a ≠ 0 ∧ a < borrowData.amount then
        .ok ⟨List.map (fun b => if b.id = borrowId then { b with amount := b.amount - a } else b)
               st.borrows,
             st.totalBorrowed - a * borrowData.price⟩
      else
        .ok ⟨List.filter (fun b => ¬ b.id = borrowId) st.borrows,
             st.totalBorrowed - borrowData.amount * borrowData.price⟩
    | none =>
      .ok ⟨List.filter (fun b => ¬ b.id = borrowId) st.borrows,
           st.totalBorrowed - borrowData.amount * borrowData.price⟩

/-- C6 counterexample: withdrawing 6 from a position of quantity 5 does
not fail with `InvalidAmount` and does not leave the position
unmodified — the code treats it as a full withdrawal, removing the
position and subtracting the whole position value. -/
theorem c6_overWithdraw_counterexample :
    (5 : ℚ) < 6
    ∧ withdrawUpdate ⟨[⟨1, 5, 1⟩], 5⟩ 1 (some 6) = .ok ⟨[], 0⟩
    ∧ withdrawUpdate ⟨[⟨1, 5, 1⟩], 5⟩ 1 (some 6) ≠ .error ErrorKind.InvalidAmount
    ∧ ([] : List SupplyPosition) ≠ [⟨1, 5, 1⟩] := by
  have h : withdrawUpdate ⟨[⟨1, 5, 1⟩], 5⟩ 1 (some 6) = .ok ⟨[], 0⟩ := by
    norm_num [withdrawUpdate, List.find?, List.filter]
  exact ⟨by norm_num, h, by rw [h]; exact fun hc => Except.noConfusion hc, by simp⟩

/-- C6 amended: for every reduction quantity at least the position's
quantity (and nonzero), both the withdraw and the repay updates succeed
as a full close: the position is removed from the set and the running
total is reduced by the full position value; no `InvalidAmount` error is
produced. -/
theorem c6_overReduce_amended :
    (∀ (st : SupplyState) (id : ℕ) (a : ℚ) (s : SupplyPosition),
      List.find? (fun x => x.id = id) st.supplies = some s →
      s.amount ≤ a → a ≠ 0 →
      withdrawUpdate st id (some a) =
        .ok ⟨List.filter (fun x => ¬ x.id = id) st.supplies,
             st.totalSupplied - s.amount * s.price⟩)
    ∧ (∀ (st : BorrowState) (id : ℕ) (a : ℚ) (b : BorrowPosition),
      List.find? (fun x => x.id = id) st.borrows = some b →
      b.amount ≤ a → a ≠ 0 →
      repayUpdate st id (some a) =
        .ok ⟨List.filter (fun x => ¬ x.id = id) st.borrows,
             st.totalBorrowed - b.amount * b.price⟩) := by
  constructor
  · intro st id a s hfind hle _
    simp only [withdrawUpdate, hfind]
    have : ¬ (a ≠ 0 ∧ a < s.amount) := by
      rintro ⟨-, hlt⟩
      exact absurd hle (not_le.mpr hlt)
    simp [this]
  · intro st id a b hfind hle _
    simp only [repayUpdate, hfind]
    have : ¬ (a ≠ 0 ∧ a < b.amount) := by
      rintro ⟨-, hlt⟩
      exact absurd hle (not_le.mpr hlt)
    simp [this]

/-- C6 amended witness: over-withdrawing (6 from 5) and over-repaying
(4 from 3) each fully close the concrete position. -/
theorem c6_overReduce_amended_witness :
    (List.find? (fun x => x.id = 1) ([⟨1, 5, 1⟩] : List SupplyPosition) = some ⟨1, 5, 1⟩ ∧
      (5 : ℚ) ≤ 6 ∧ (6 : ℚ) ≠ 0 ∧
      withdrawUpdate ⟨[⟨1, 5, 1⟩], 5⟩ 1 (some 6) =
        .ok ⟨List.filter (fun x => ¬ x.id = 1) ([⟨1, 5, 1⟩] : List SupplyPosition), 5 - 5 * 1⟩)
    ∧ (List.find? (fun x => x.id = 2) ([⟨2, 3, 2⟩] : List BorrowPosition) = some ⟨2, 3, 2⟩ ∧
      (3 : ℚ) ≤ 4 ∧ (4 : ℚ) ≠ 0 ∧
      repayUpdate ⟨[⟨2, 3, 2⟩], 6⟩ 2 (some 4) =
        .ok ⟨List.filter (fun x => ¬ x.id = 2) ([⟨2, 3, 2⟩] : List BorrowPosition), 6 - 3 * 2⟩) := by
  have hf1 : List.find? (fun x => x.id = 1) ([⟨1, 5, 1⟩] : List SupplyPosition) =
      some ⟨1, 5, 1⟩ := by simp [List.find?]
  have hf2 : List.find? (fun x => x.id = 2) ([⟨2, 3, 2⟩] : List BorrowPosition) =
      some ⟨2, 3, 2⟩ := by simp [List.find?]
  exact ⟨⟨hf1, by norm_num, by norm_num,
      c6_overReduce_amended.1 ⟨[⟨1, 5, 1⟩], 5⟩ 1 6 ⟨1, 5, 1⟩ hf1 (by norm_num) (by norm_num)⟩,
    ⟨hf2, by norm_num, by norm_num,
      c6_overReduce_amended.2 ⟨[⟨2, 3, 2⟩], 6⟩ 2 4 ⟨2, 3, 2⟩ hf2 (by norm_num) (by norm_num)⟩⟩

/-- A supply entry as the yield hooks see it: quantity, token price and
supply APY. -/
structure SupplyEntry where
  amount : ℚ
  price : ℚ
  apy : ℚ
deriving DecidableEq, Repr

/-- `averageAPY` from `src/hooks/useYield.js` (lines 60-68): 0 when the
list is empty or when the separately maintained `totalSupplied` state is
0, else the reduce of `apy * (value / totalSupplied)`. -/
def averageAPY (supplies : List SupplyEntry) (totalSupplied : ℚ) : ℚ :=
  if supplies.length = 0 ∨ totalSupplied = 0 then 0
  else List.foldl (fun ws s => ws + s.apy * (s.amount * s.price / totalSupplied)) 0 supplies

/-- `averageSupplyAPY` from the supply hook (lines 29-41): 0 on an empty
list; otherwise computes the total value itself, returns 0 when it is 0,
else the reduce of `apy * (value / totalValue)`. -/
def averageSupplyAPY (supplies : List SupplyEntry) : ℚ :=
  if supplies.length = 0 then 0
  else
    let totalValue := List.foldl (fun sum s => sum + s.amount * s.price) 0 supplies
    if totalValue = 0 then 0
    else List.foldl (fun sum s => sum + s.apy * (s.amount * s.price / totalValue)) 0 supplies

/-- The total position value as the specification words it:
`Σ (position value)`. -/
def specTotalValue (l : List SupplyEntry) : ℚ :=
  (List.map (fun s => s.amount * s.price) l).sum

/-- The weighted APY numerator as the specification words it:
`Σ (position value × position APY)`. -/
def specWeightedSum (l : List SupplyEntry) : ℚ :=
  (List.map (fun s => s.amount * s.price * s.apy) l).sum

/-- The value-accumulating fold of the source equals the specification's
sum. -/
theorem value_foldl_eq (l : List SupplyEntry) (a : ℚ) :
    List.foldl (fun sum s => sum + s.amount * s.price) a l = a + specTotalValue l := by
  induction l generalizing a with
  | nil => simp [specTotalValue]
  | cons s t ih => simp [specTotalValue, ih]; ring

/-- The weight-accumulating fold of the source equals the
specification's ratio of sums. -/
theorem weighted_foldl_eq (l : List SupplyEntry) (T a : ℚ) :
    List.foldl (fun sum s => sum + s.apy * (s.amount * s.price / T)) a l
      = a + specWeightedSum l / T := by
  induction l generalizing a with
  | nil => simp [specWeightedSum]
  | cons s t ih => simp [specWeightedSum, ih, add_div]; ring

/-- C8 counterexample: over the single position with quantity 0, price 1
and APY 5 — whose position value is 0 — the weighted average APY is 0,
not the position's APY 5. -/
theorem c8_singleton_counterexample :
    averageSupplyAPY [⟨0, 1, 5⟩] = 0
    ∧ (⟨0, 1, 5⟩ : SupplyEntry).apy = 5
    ∧ (0 : ℚ) ≠ 5 := by
  refine ⟨?_, rfl, by norm_num⟩
  norm_num [averageSupplyAPY, List.foldl]

/-- C8 amended: the weighted average APY is 0 over an empty set (for
both implementations); over a single position of nonzero value it equals
that position's APY exactly; in general it equals
`Σ(value × APY) / Σ(value)` with 0 when the total value is 0; and
`averageAPY` agrees with `averageSupplyAPY` whenever its `totalSupplied`
argument is the actual total value. -/
theorem c8_weightedAPY_amended :
    (averageSupplyAPY [] = 0 ∧ ∀ T : ℚ, averageAPY [] T = 0)
    ∧ (∀ s : SupplyEntry, s.amount * s.price ≠ 0 → averageSupplyAPY [s] = s.apy)
    ∧ (∀ l : List SupplyEntry,
        averageSupplyAPY l =
          if specTotalValue l = 0 then 0 else specWeightedSum l / specTotalValue l)
    ∧ (∀ l : List SupplyEntry, averageAPY l (specTotalValue l) = averageSupplyAPY l) := by
  have key : ∀ l : List SupplyEntry,
      averageSupplyAPY l =
        if specTotalValue l = 0 then 0 else specWeightedSum l / specTotalValue l := by
    intro l
    by_cases h0 : l.length = 0
    · have : l = [] := List.length_eq_zero.mp h0
      subst this
      simp [averageSupplyAPY, specTotalValue]
    · by_cases hT : specTotalValue l = 0
      · simp [averageSupplyAPY, h0, value_foldl_eq, hT]
      · simp [averageSupplyAPY, h0, value_foldl_eq, hT, weighted_foldl_eq]
  refine ⟨⟨by simp [averageSupplyAPY], fun T => by simp [averageAPY]⟩, ?_, key, ?_⟩
  · intro s hv
    rw [key [s]]
    have hT : specTotalValue [s] = s.amount * s.price := by
      simp [specTotalValue]
    rw [hT]
    simp [specWeightedSum, hv, mul_div_assoc, mul_comm, div_self hv]
  · intro l
    by_cases h0 : l.length = 0
    · have : l = [] := List.length_eq_zero.mp h0
      subst this
      simp [averageAPY, averageSupplyAPY]
    · by_cases hT : specTotalValue l = 0
      · simp [averageAPY, averageSupplyAPY, h0, value_foldl_eq, hT]
      · simp [averageAPY, averageSupplyAPY, h0, value_foldl_eq, hT]

/-- C8 amended witness: a single position of value 6 and APY 4 has
weighted average exactly 4; a concrete two-position set matches the
ratio-of-sums formula; and `averageAPY` at the true total agrees. -/
theorem c8_weightedAPY_amended_witness :
    ((⟨2, 3, 4⟩ : SupplyEntry).amount * (⟨2, 3, 4⟩ : SupplyEntry).price ≠ 0 ∧
      averageSupplyAPY [⟨2, 3, 4⟩] = (⟨2, 3, 4⟩ : SupplyEntry).apy)
    ∧ averageSupplyAPY [⟨2, 3, 4⟩, ⟨1, 6, 10⟩] =
        (if specTotalValue [⟨2, 3, 4⟩, ⟨1, 6, 10⟩] = 0 then 0
         else specWeightedSum [⟨2, 3, 4⟩, ⟨1, 6, 10⟩] / specTotalValue [⟨2, 3, 4⟩, ⟨1, 6, 10⟩])
    ∧ averageAPY [⟨2, 3, 4⟩] (specTotalValue [⟨2, 3, 4⟩]) = averageSupplyAPY [⟨2, 3, 4⟩] :=
  ⟨⟨by norm_num, c8_weightedAPY_amended.2.1 ⟨2, 3, 4⟩ (by norm_num)⟩,
   c8_weightedAPY_amended.2.2.1 [⟨2, 3, 4⟩, ⟨1, 6, 10⟩],
   c8_weightedAPY_amended.2.2.2 [⟨2, 3, 4⟩]⟩

/-- The record returned by `calculateCompoundProjection`. -/
structure Projection where
  finalAmount : ℝ
  totalInterest : ℝ
  percentageGain : ℝ

/-- `calculateCompoundProjection` from `src/hooks/useYield.js` (lines
224-236): daily compounding `amount = principal * (1 + rate/365)^(365*years)`
with `rate = apy/100`, `interest = amount - principal`.  Because the
source raises to the real exponent `365 * years` (fractional years are
allowed), the embedding works in `ℝ` with the real power. -/
noncomputable def calculateCompoundProjection (principal apy years : ℝ) : Projection :=
  let rate := apy / 100
  let amount := principal * (1 + rate / 365) ^ (365 * years)
  let interest := amount - principal
  { finalAmount := amount
    totalInterest := interest
    percentageGain := interest / principal * 100 }

/-- C9: for non-negative principal, APY and (possibly fractional) years,
the projection returns `finalAmount = principal * (1 + apy/100/365) ^
(365*years)` and `totalInterest = finalAmount - principal`; in
particular zero years returns the principal unchanged with zero
interest. -/
theorem c9_compoundProjection (principal apy years : ℝ)
    (_hp : 0 ≤ principal) (_ha : 0 ≤ apy) (_hy : 0 ≤ years) :
    (calculateCompoundProjection principal apy years).finalAmount =
      principal * (1 + apy / 100 / 365) ^ (365 * years)
    ∧ (calculateCompoundProjection principal apy years).totalInterest =
      (calculateCompoundProjection principal apy years).finalAmount - principal
    ∧ (years = 0 →
      (calculateCompoundProjection principal apy years).finalAmount = principal ∧
      (calculateCompoundProjection principal apy years).totalInterest = 0) := by
  refine ⟨rfl, rfl, ?_⟩
  intro h0
  subst h0
  constructor
  · show principal * (1 + apy / 100 / 365) ^ (365 * (0 : ℝ)) = principal
    rw [mul_zero, Real.rpow_zero, mul_one]
  · show principal * (1 + apy / 100 / 365) ^ (365 * (0 : ℝ)) - principal = 0
    rw [mul_zero, Real.rpow_zero, mul_one, sub_self]

/-- C9 witness: principal 2 at APY 7 for zero years keeps `finalAmount =
2` and earns zero interest. -/
theorem c9_compoundProjection_witness :
    (0 : ℝ) ≤ 2 ∧ (0 : ℝ) ≤ 7 ∧ (0 : ℝ) ≤ 0 ∧
    (calculateCompoundProjection 2 7 0).finalAmount = 2 ∧
    (calculateCompoundProjection 2 7 0).totalInterest = 0 :=
  ⟨by norm_num, by norm_num, le_refl 0,
   (c9_compoundProjection 2 7 0 (by norm_num) (by norm_num) (le_refl 0)).2.2 rfl⟩

end Celipto
